import Mathlib

/-!
Verification development for the TPS Terraria server.

The definitions below are shallow embeddings of the Python source:

* `src/net/protocols.py` — `BinaryMessageProtocol.dataReceived` (frame
  decoder), `ProtocolManager` (registry and broadcast),
  `TerrariaSession.getNextAvailableClientNumber`,
  `TerrariaProtocol.handleConnectionRequest` and
  `TerrariaProtocol.gotTileBlockRequest`;
* `src/net/parsers.py` — `parseConnectionRequest`;
* `src/net/server.py` — `ConnectionManager.getNewClientId`.

Bytes are modelled as `Nat` (each `< 256` where it matters), buffers as
`List Nat`, and the effects of a handler (messages written to the
transport, the transport being closed) as explicit result values.
-/

namespace TPS

/-! ## Frame decoder: `BinaryMessageProtocol.dataReceived`

`headerFormat = "<H"` is a little-endian unsigned 16-bit integer, so
`headerFormatLen = 2` and `struct.unpack` on the first two buffer bytes
returns `b0 + 256 * b1`. -/

def headerFormatLen : Nat := 2

def MAX_LENGTH : Nat := 9999

/-- Value of `struct.unpack("<H", buf[:2])` (only consulted when the
buffer holds at least two bytes). -/
def unpackU16 : List Nat → Nat
  | b0 :: b1 :: _ => b0 + 256 * b1
  | _ => 0

/-- Observable actions performed while a connection processes incoming
data: a decoded frame handed to `messageReceived`, a message written to
the transport, or `transport.loseConnection()`. -/
inductive NetEvent : Type where
  | frame (bytes : List Nat)
  | sendDisconnect
  | close
  deriving DecidableEq, Repr

/-- Embedding of `BinaryMessageProtocol.lengthLimitExceeded`: its body is
a single `self.transport.loseConnection()` call — it sends nothing. -/
def lengthLimitExceeded (_length : Nat) : List NetEvent := [NetEvent.close]

/-- Embedding of the `while` loop of `BinaryMessageProtocol.dataReceived`
(src/net/protocols.py lines 235-254), run on the buffer after the incoming
chunk has been appended.  Returns the events in order together with the
final `_messageBuffer`.  The slice `buffer[2 : length + 2]` is
`(buf.drop 2).take length` and `buffer[length + 2 :]` is
`buf.drop (length + 2)`, with the same clamping as Python slices. -/
def dataReceivedLoop (buf : List Nat) : List NetEvent × List Nat :=
  if _h : headerFormatLen ≤ buf.length then
    let length := unpackU16 buf
    if length > MAX_LENGTH then
      (lengthLimitExceeded length, buf)
    else if buf.length < length then
      ([], buf)
    else
      let messageRaw := (buf.drop headerFormatLen).take length
      let rest := buf.drop (length + headerFormatLen)
      let r := dataReceivedLoop rest
      (NetEvent.frame messageRaw :: r.1, r.2)
  else
    ([], buf)
termination_by buf.length
decreasing_by
  simp only [List.length_drop, headerFormatLen] at *
  omega

/-- Unfolding equation for `dataReceivedLoop`, convenient for rewriting. -/
theorem dataReceivedLoop_eq (buf : List Nat) :
    dataReceivedLoop buf =
      if headerFormatLen ≤ buf.length then
        if unpackU16 buf > MAX_LENGTH then
          (lengthLimitExceeded (unpackU16 buf), buf)
        else if buf.length < unpackU16 buf then
          ([], buf)
        else
          (NetEvent.frame ((buf.drop headerFormatLen).take (unpackU16 buf)) ::
              (dataReceivedLoop (buf.drop (unpackU16 buf + headerFormatLen))).1,
            (dataReceivedLoop (buf.drop (unpackU16 buf + headerFormatLen))).2)
      else
        ([], buf) := by
  rw [dataReceivedLoop.eq_def]
  split <;> rfl

/-- One call of `dataReceived`: extend the buffer with the incoming data,
then run the decoding loop. -/
def dataReceived (buffer data : List Nat) : List NetEvent × List Nat :=
  dataReceivedLoop (buffer ++ data)

/-- Feed a sequence of chunks through successive `dataReceived` calls,
starting from the empty buffer of `connectionMade`, and collect all events
in order. -/
def feedChunks (chunks : List (List Nat)) : List NetEvent × List Nat :=
  chunks.foldl
    (fun acc chunk =>
      let r := dataReceived acc.2 chunk
      (acc.1 ++ r.1, r.2))
    ([], [])

/-- The frames among a list of events, in order. -/
def framesOf (events : List NetEvent) : List (List Nat) :=
  events.filterMap fun e =>
    match e with
    | NetEvent.frame b => some b
    | _ => none

/-- Every event list the decoding loop produces is a run of frames,
optionally terminated by a single `close` (from `lengthLimitExceeded`);
in particular nothing ever follows the `close` and no message is ever
written to the transport by the decoder. -/
theorem dataReceivedLoop_shape_aux (n : Nat) :
    ∀ buf : List Nat, buf.length ≤ n →
      (∃ fs : List (List Nat), (dataReceivedLoop buf).1 = fs.map NetEvent.frame) ∨
      (∃ fs : List (List Nat), (dataReceivedLoop buf).1 = fs.map NetEvent.frame ++ [NetEvent.close]) := by
  induction n with
  | zero =>
      intro buf hle
      rw [dataReceivedLoop_eq]
      have : ¬ headerFormatLen ≤ buf.length := by
        simp only [headerFormatLen]; omega
      rw [if_neg this]
      exact Or.inl ⟨[], rfl⟩
  | succ n ih =>
      intro buf hle
      rw [dataReceivedLoop_eq]
      split_ifs with h1 h2 h3
      · exact Or.inr ⟨[], rfl⟩
      · exact Or.inl ⟨[], rfl⟩
      · have hrest : (buf.drop (unpackU16 buf + headerFormatLen)).length ≤ n := by
          simp only [List.length_drop, headerFormatLen] at *
          omega
        rcases ih _ hrest with ⟨fs, hfs⟩ | ⟨fs, hfs⟩
        · exact Or.inl ⟨(buf.drop headerFormatLen).take (unpackU16 buf) :: fs, by
            simp [hfs]⟩
        · exact Or.inr ⟨(buf.drop headerFormatLen).take (unpackU16 buf) :: fs, by
            simp [hfs]⟩
      · exact Or.inl ⟨[], rfl⟩

theorem dataReceivedLoop_shape (buf : List Nat) :
    (∃ fs : List (List Nat), (dataReceivedLoop buf).1 = fs.map NetEvent.frame) ∨
    (∃ fs : List (List Nat), (dataReceivedLoop buf).1 = fs.map NetEvent.frame ++ [NetEvent.close]) :=
  dataReceivedLoop_shape_aux buf.length buf le_rfl

/-- C1: the claim that `dataReceived` is chunking-independent fails on the
code.  The stream `[3, 0, 1, 2, 3]` (declared length 3, body `[1, 2, 3]`)
delivered whole emits the frame `[1, 2, 3]`, but delivered as the chunks
`[3, 0, 1]` and `[2, 3]` it emits only the truncated frame `[1]`, because
the loop tests `len(buffer) < length` instead of
`len(buffer) < length + headerFormatLen` before slicing. -/
theorem dataReceived_chunking_dependence :
    ([[3, 0, 1], [2, 3]] : List (List Nat)).flatten = [3, 0, 1, 2, 3] ∧
    framesOf (feedChunks [[3, 0, 1, 2, 3]]).1 = [[1, 2, 3]] ∧
    framesOf (feedChunks [[3, 0, 1], [2, 3]]).1 = [[1]] ∧
    ([[1, 2, 3]] : List (List Nat)) ≠ [[1]] := by
  have h0 : dataReceivedLoop [] = ([], []) := by
    rw [dataReceivedLoop_eq]
    simp [headerFormatLen]
  have h1 : dataReceivedLoop [3, 0, 1, 2, 3] = ([NetEvent.frame [1, 2, 3]], []) := by
    rw [dataReceivedLoop_eq]
    norm_num [unpackU16, MAX_LENGTH, headerFormatLen, h0]
  have h2 : dataReceivedLoop [3, 0, 1] = ([NetEvent.frame [1]], []) := by
    rw [dataReceivedLoop_eq]
    norm_num [unpackU16, MAX_LENGTH, headerFormatLen, h0]
  have h3 : dataReceivedLoop [2, 3] = ([], [2, 3]) := by
    rw [dataReceivedLoop_eq]
    norm_num [unpackU16, MAX_LENGTH, headerFormatLen]
  refine ⟨by simp, ?_, ?_, by simp⟩
  · simp only [feedChunks, List.foldl, dataReceived, List.nil_append, h1]
    simp [framesOf]
  · simp only [feedChunks, List.foldl, dataReceived, List.nil_append, h2,
      List.append_nil, h3]
    simp [framesOf]

/-- C2: the claim that a frame is only emitted once the buffer holds
header + declared-length bytes fails on the code.  With the three bytes
`[3, 0, 1]` buffered (declared length 3, so 5 bytes would be needed),
`dataReceived` already emits a frame, and that frame holds 1 byte instead
of the declared 3 — a partial emission. -/
theorem dataReceived_partial_frame :
    (dataReceived [] [3, 0, 1]).1 = [NetEvent.frame [1]] ∧
    unpackU16 [3, 0, 1] = 3 ∧
    ([3, 0, 1] : List Nat).length < headerFormatLen + 3 ∧
    ([1] : List Nat).length ≠ 3 := by
  have h0 : dataReceivedLoop [] = ([], []) := by
    rw [dataReceivedLoop_eq]
    simp [headerFormatLen]
  refine ⟨?_, by norm_num [unpackU16], by norm_num [headerFormatLen], by norm_num⟩
  rw [dataReceived, List.nil_append, dataReceivedLoop_eq]
  norm_num [unpackU16, MAX_LENGTH, headerFormatLen, h0]

/-- C7: whenever the frame decoder reads a length prefix above
`MAX_LENGTH = 9999` it closes the transport and the decoding loop stops:
no disconnect notice is ever written by the decoder, any `close` event is
the last event of the call (so no frame is emitted from the remaining
buffered data), and a buffer whose head declares an oversize length
produces exactly one `close` and nothing else. -/
theorem dataReceived_lengthLimit_fatal (buffer data : List Nat) :
    NetEvent.sendDisconnect ∉ (dataReceived buffer data).1 ∧
    (NetEvent.close ∈ (dataReceived buffer data).1 →
      ∃ fs : List (List Nat),
        (dataReceived buffer data).1 = fs.map NetEvent.frame ++ [NetEvent.close]) ∧
    (headerFormatLen ≤ (buffer ++ data).length →
      unpackU16 (buffer ++ data) > MAX_LENGTH →
      (dataReceived buffer data).1 = [NetEvent.close]) := by
  refine ⟨?_, ?_, ?_⟩
  · rcases dataReceivedLoop_shape (buffer ++ data) with ⟨fs, h⟩ | ⟨fs, h⟩ <;>
      rw [dataReceived, h] <;> simp
  · intro hmem
    rcases dataReceivedLoop_shape (buffer ++ data) with ⟨fs, h⟩ | ⟨fs, h⟩
    · rw [dataReceived, h] at hmem
      simp at hmem
    · exact ⟨fs, by rw [dataReceived, h]⟩
  · intro hlen hgt
    rw [dataReceived, dataReceivedLoop_eq, if_pos hlen, if_pos hgt]
    rfl

/-- Witness for `dataReceived_lengthLimit_fatal`: the two bytes
`[16, 39]` declare length 10000 > 9999, and one `dataReceived` call on
them produces exactly a `close`. -/
theorem dataReceived_lengthLimit_fatal_witness :
    (dataReceived [] [16, 39]).1 = [NetEvent.close] :=
  (dataReceived_lengthLimit_fatal [] [16, 39]).2.2
    (by norm_num [headerFormatLen])
    (by norm_num [unpackU16, MAX_LENGTH])

/-! ## Connection registry: `ProtocolManager` (src/net/protocols.py lines 80-116) -/

/-- Embedding of Python's `list.remove`: it removes the first occurrence
of the value; `none` models the `ValueError` raised when the value is
absent. -/
def pyListRemove {α : Type} [DecidableEq α] : List α → α → Option (List α)
  | [], _ => none
  | x :: xs, a => if x = a then some xs else (pyListRemove xs a).map (x :: ·)

/-- Embedding of `ProtocolManager.connectionLost`: remove the protocol
from `self.protocols`, guarded by a membership test; `none` models an
uncaught exception. -/
def connectionLost {α : Type} [DecidableEq α] (protocols : List α) (protocol : α) :
    Option (List α) :=
  if protocol ∈ protocols then pyListRemove protocols protocol else some protocols

theorem pyListRemove_eq {α : Type} [DecidableEq α] (l : List α) (a : α) :
    pyListRemove l a = if a ∈ l then some (l.erase a) else none := by
  induction l with
  | nil => simp [pyListRemove]
  | cons x xs ih =>
      by_cases hxa : x = a
      · subst hxa
        simp [pyListRemove, List.erase_cons_head]
      · rw [pyListRemove, if_neg hxa, ih]
        by_cases hmem : a ∈ xs
        · rw [if_pos hmem, if_pos (by simp [hmem])]
          rw [List.erase_cons_tail (by simp [hxa])]
          rfl
        · rw [if_neg hmem, if_neg (by simp [hmem]; exact fun h => hxa h.symm)]
          rfl

/-- C10: the claim fails on the code: `connectionLost` is not idempotent
on every protocol list.  With the same protocol registered twice (list
`[0, 0]`), one call leaves `[0]` and a second call removes the remaining
occurrence, so applying the operation twice differs from applying it
once. -/
theorem connectionLost_not_idempotent :
    connectionLost ([0, 0] : List Nat) 0 = some [0] ∧
    (connectionLost ([0, 0] : List Nat) 0).bind (fun qs => connectionLost qs 0) = some [] ∧
    some ([] : List Nat) ≠ some [0] := by
  decide

/-- C10 amended: `connectionLost` is total (it never raises: absence is
guarded); with the protocol absent it returns the list unchanged; with
the protocol present it removes exactly the first occurrence, leaving
every other entry unchanged in order; and it is idempotent on every list
in which the protocol occurs at most once — in particular whenever each
connection registered itself once. -/
theorem connectionLost_behavior {α : Type} [DecidableEq α] (ps : List α) (p : α) :
    (∃ qs, connectionLost ps p = some qs) ∧
    (p ∉ ps → connectionLost ps p = some ps) ∧
    (∀ l r, ps = l ++ p :: r → p ∉ l → connectionLost ps p = some (l ++ r)) ∧
    (ps.count p ≤ 1 →
      (connectionLost ps p).bind (fun qs => connectionLost qs p) = connectionLost ps p) := by
  have hmain : connectionLost ps p = some (if p ∈ ps then ps.erase p else ps) := by
    rw [connectionLost, pyListRemove_eq]
    by_cases hmem : p ∈ ps <;> simp [hmem]
  refine ⟨⟨_, hmain⟩, ?_, ?_, ?_⟩
  · intro hnot
    rw [hmain, if_neg hnot]
  · intro l r hps hnotl
    subst hps
    rw [hmain, if_pos (by simp)]
    rw [List.erase_append_right _ hnotl, List.erase_cons_head]
  · intro hcount
    by_cases hmem : p ∈ ps
    · have herase : p ∉ ps.erase p := by
        have := List.count_erase_self p ps
        have hpos : 0 < ps.count p := List.count_pos_iff.mpr hmem
        intro hcontra
        have := List.count_pos_iff.mpr hcontra
        omega
      have h2 : connectionLost (ps.erase p) p = some (ps.erase p) := by
        rw [connectionLost, if_neg herase]
      rw [hmain, if_pos hmem]
      simp only [Option.some_bind]
      rw [h2]
    · rw [hmain, if_neg hmem]
      simp only [Option.some_bind]
      rw [hmain, if_neg hmem]

/-- Witness for `connectionLost_behavior` at the list `[1, 2, 3]` and
protocol `2`. -/
theorem connectionLost_behavior_witness :
    connectionLost ([1, 2, 3] : List Nat) 2 = some ([1] ++ [3]) ∧
    connectionLost ([1, 2, 3] : List Nat) 4 = some [1, 2, 3] :=
  ⟨(connectionLost_behavior [1, 2, 3] 2).2.2.1 [1] [3] rfl (by decide),
   (connectionLost_behavior [1, 2, 3] 4).2.1 (by decide)⟩

/-- A protocol object as the broadcast loops see it: an identity, and
whether its `sendMessage` raises (a transport send failure). -/
structure ProtocolRef where
  pid : Nat
  sendFails : Bool
  deriving DecidableEq, Repr

/-- Embedding of the loop of `ProtocolManager.sendMessageToAllProtocols`:
send to each protocol in registration order.  `Except.ok ids` means every
protocol received the message; `Except.error ids` means a send raised and
the loop aborted, `ids` being the protocols reached before the failure —
the exception propagates, there is no `try` in the source. -/
def sendMessageToAllProtocols : List ProtocolRef → Except (List Nat) (List Nat)
  | [] => Except.ok []
  | p :: ps =>
    if p.sendFails then Except.error []
    else
      match sendMessageToAllProtocols ps with
      | Except.ok sent => Except.ok (p.pid :: sent)
      | Except.error sent => Except.error (p.pid :: sent)

/-- Embedding of the loop of
`ProtocolManager.sendMessageToAllOtherProtocols`: identical, but
protocols in `ignoredProtocols` are skipped. -/
def sendMessageToAllOtherProtocols :
    List ProtocolRef → List ProtocolRef → Except (List Nat) (List Nat)
  | [], _ => Except.ok []
  | p :: ps, ignoredProtocols =>
    if p ∈ ignoredProtocols then sendMessageToAllOtherProtocols ps ignoredProtocols
    else if p.sendFails then Except.error []
    else
      match sendMessageToAllOtherProtocols ps ignoredProtocols with
      | Except.ok sent => Except.ok (p.pid :: sent)
      | Except.error sent => Except.error (p.pid :: sent)

/-- The whole method call, paired with `self.protocols` afterwards: the
method body is only the send loop, so the registry is returned
unchanged — nothing is recorded and no connection is scheduled for
removal. -/
def sendMessageToAllProtocolsCall (protocols : List ProtocolRef) :
    Except (List Nat) (List Nat) × List ProtocolRef :=
  (sendMessageToAllProtocols protocols, protocols)

/-- C8: the claim fails on the code: a send failure aborts the broadcast.
With protocols `0`, `1`, `2` registered and protocol `1` failing, only
protocol `0` receives the message — protocol `2` does not — and the
registry still contains the failing protocol, unchanged. -/
theorem sendMessageToAllProtocols_aborts :
    sendMessageToAllProtocolsCall
        [⟨0, false⟩, ⟨1, true⟩, ⟨2, false⟩] =
      (Except.error [0], [⟨0, false⟩, ⟨1, true⟩, ⟨2, false⟩]) ∧
    (2 : Nat) ∉ [0] :=
  ⟨rfl, by decide⟩

/-- C8 amended: a broadcast delivers to every registered protocol only
when no send fails; when a send fails, the exception propagates out of
the loop, exactly the protocols before the first failing one have
received the message, no later protocol receives it, and the registry is
left unchanged (the failure is neither recorded nor does it schedule a
removal).  The same holds for `sendMessageToAllOtherProtocols` with the
ignored set taken into account. -/
theorem sendMessageToAllProtocols_failure_behavior
    (ps l r : List ProtocolRef) (p : ProtocolRef) (ign : List ProtocolRef) :
    ((∀ q ∈ ps, q.sendFails = false) →
      sendMessageToAllProtocolsCall ps = (Except.ok (ps.map ProtocolRef.pid), ps)) ∧
    ((∀ q ∈ l, q.sendFails = false) → p.sendFails = true →
      sendMessageToAllProtocolsCall (l ++ p :: r) =
        (Except.error (l.map ProtocolRef.pid), l ++ p :: r)) ∧
    ((∀ q ∈ l, q.sendFails = false ∧ q ∉ ign) → p.sendFails = true → p ∉ ign →
      sendMessageToAllOtherProtocols (l ++ p :: r) ign =
        Except.error (l.map ProtocolRef.pid)) := by
  refine ⟨?_, ?_, ?_⟩
  · intro hok
    rw [sendMessageToAllProtocolsCall]
    congr 1
    induction ps with
    | nil => rfl
    | cons q qs ih =>
        rw [sendMessageToAllProtocols, if_neg (by simp [hok q (by simp)])]
        rw [ih (fun q hq => hok q (by simp [hq]))]
        rfl
  · intro hok hfail
    rw [sendMessageToAllProtocolsCall]
    congr 1
    induction l with
    | nil =>
        rw [List.nil_append, sendMessageToAllProtocols, if_pos hfail]
        rfl
    | cons q qs ih =>
        rw [List.cons_append, sendMessageToAllProtocols,
          if_neg (by simp [hok q (by simp)])]
        rw [ih (fun q hq => hok q (by simp [hq]))]
        rfl
  · intro hok hfail hign
    induction l with
    | nil =>
        rw [List.nil_append, sendMessageToAllOtherProtocols, if_neg hign,
          if_pos hfail]
        rfl
    | cons q qs ih =>
        have hq := hok q (by simp)
        rw [List.cons_append, sendMessageToAllOtherProtocols,
          if_neg hq.2, if_neg (by simp [hq.1])]
        rw [ih (fun q hq => hok q (by simp [hq]))]
        rfl

/-- Witness for `sendMessageToAllProtocols_failure_behavior`: protocol 3
delivered, protocol 7 failing, protocol 4 behind it. -/
theorem sendMessageToAllProtocols_failure_behavior_witness :
    sendMessageToAllProtocolsCall [⟨3, false⟩, ⟨7, true⟩, ⟨4, false⟩] =
      (Except.error [3], [⟨3, false⟩, ⟨7, true⟩, ⟨4, false⟩]) :=
  (sendMessageToAllProtocols_failure_behavior
      [⟨3, false⟩, ⟨7, true⟩, ⟨4, false⟩] [⟨3, false⟩] [⟨4, false⟩] ⟨7, true⟩ []).2.1
    (by decide) (by decide)

/-! ## Client number allocation

Two allocators exist in the sources: `ConnectionManager.getNewClientId`
(src/net/server.py lines 69-80), which scans the clientNumbers of the
current connections for the smallest free integer, and
`TerrariaSession.getNextAvailableClientNumber`
(src/net/protocols.py lines 285-290), a class-level counter that only
ever increments. -/

theorem mem_le_foldr_max {a : Nat} : ∀ {l : List Nat}, a ∈ l → a ≤ l.foldr max 0 := by
  intro l hmem
  induction l with
  | nil => cases hmem
  | cons x xs ih =>
      rcases List.mem_cons.mp hmem with h | h
      · subst h
        exact le_max_left _ _
      · exact le_trans (ih h) (le_max_right _ _)

/-- The `while clientId in idList: clientId += 1` loop of
`getNewClientId`. -/
def findFreeId (idList : List Nat) (clientId : Nat) : Nat :=
  if h : clientId ∈ idList then findFreeId idList (clientId + 1) else clientId
termination_by idList.foldr max 0 + 1 - clientId
decreasing_by
  have := mem_le_foldr_max h
  omega

/-- Embedding of `ConnectionManager.getNewClientId`: `idList` holds the
`clientNumber` of every current connection; the result is the first
`clientId`, counting up from 0, not in that list. -/
def getNewClientId (idList : List Nat) : Nat :=
  findFreeId idList 0

theorem findFreeId_eq (idList : List Nat) (clientId : Nat) :
    findFreeId idList clientId =
      if clientId ∈ idList then findFreeId idList (clientId + 1) else clientId := by
  rw [findFreeId.eq_def]
  split <;> rfl

theorem findFreeId_spec_aux (l : List Nat) :
    ∀ k c, l.foldr max 0 + 1 - c ≤ k →
      findFreeId l c ∉ l ∧ c ≤ findFreeId l c ∧
        ∀ m, c ≤ m → m < findFreeId l c → m ∈ l := by
  intro k
  induction k with
  | zero =>
      intro c hk
      have hc : c ∉ l := fun hmem => by
        have := mem_le_foldr_max hmem
        omega
      rw [findFreeId_eq, if_neg hc]
      exact ⟨hc, le_rfl, fun m h1 h2 => absurd (lt_of_le_of_lt h1 h2) (lt_irrefl c)⟩
  | succ k ih =>
      intro c hk
      by_cases hc : c ∈ l
      · have hle := mem_le_foldr_max hc
        rw [findFreeId_eq, if_pos hc]
        obtain ⟨h1, h2, h3⟩ := ih (c + 1) (by omega)
        refine ⟨h1, by omega, fun m hm1 hm2 => ?_⟩
        rcases Nat.eq_or_lt_of_le hm1 with h | h
        · exact h ▸ hc
        · exact h3 m h hm2
      · rw [findFreeId_eq, if_neg hc]
        exact ⟨hc, le_rfl, fun m h1 h2 => absurd (lt_of_le_of_lt h1 h2) (lt_irrefl c)⟩

theorem getNewClientId_spec (idList : List Nat) :
    getNewClientId idList ∉ idList ∧
      ∀ m, m < getNewClientId idList → m ∈ idList := by
  obtain ⟨h1, _, h3⟩ := findFreeId_spec_aux idList (idList.foldr max 0 + 1) 0 (by omega)
  exact ⟨h1, fun m hm => h3 m (Nat.zero_le m) hm⟩

/-- The client numbers present after `n` connections have been accepted,
starting from an empty registry with no removals: each new connection is
given `getNewClientId` of the numbers currently in use
(src/net/server.py line 137). -/
def registerN : Nat → List Nat
  | 0 => []
  | n + 1 => registerN n ++ [getNewClientId (registerN n)]

/-- Embedding of `TerrariaSession.getNextAvailableClientNumber`: the
class attribute `nextClientNumber` (initially -1) is incremented and
returned; the pair is (new counter value, returned client number). -/
def getNextAvailableClientNumber (nextClientNumber : Int) : Int × Int :=
  (nextClientNumber + 1, nextClientNumber + 1)

/-- C3: the claim fails on the code for
`TerrariaSession.getNextAvailableClientNumber`: it does not return the
smallest unassigned number and never reuses freed numbers.  Starting from
the initial counter -1, a first session receives 0; after that session
disconnects (leaving no live connection), the next session receives 1,
although 0 is free — as `getNewClientId` run on the empty live list
confirms. -/
theorem getNextAvailableClientNumber_no_reuse :
    (getNextAvailableClientNumber (-1)).2 = 0 ∧
    (getNextAvailableClientNumber (getNextAvailableClientNumber (-1)).1).2 = 1 ∧
    getNewClientId [] = 0 ∧
    (1 : Int) ≠ 0 := by
  refine ⟨by decide, by decide, ?_, by decide⟩
  rw [getNewClientId, findFreeId_eq]
  simp

/-- C3 amended: `ConnectionManager.getNewClientId` does return the
smallest non-negative integer not assigned to any current connection, and
after `n` registrations with no removals the assigned numbers are exactly
`0 .. n-1` (in registration order); numbers freed by a disconnect are
reused because the scan restarts from 0.
`TerrariaSession.getNextAvailableClientNumber`, by contrast, is a
monotone counter (it always returns its predecessor plus one) and never
reuses a freed number. -/
theorem getNewClientId_smallest_unused (idList : List Nat) (n : Nat) (c : Int) :
    getNewClientId idList ∉ idList ∧
    (∀ m, m < getNewClientId idList → m ∈ idList) ∧
    registerN n = List.range n ∧
    (getNextAvailableClientNumber c).2 = c + 1 := by
  refine ⟨(getNewClientId_spec idList).1, (getNewClientId_spec idList).2, ?_, rfl⟩
  induction n with
  | zero => rfl
  | succ n ih =>
      rw [registerN, ih]
      have hspec := getNewClientId_spec (List.range n)
      have hid : getNewClientId (List.range n) = n := by
        have h1 : ¬ getNewClientId (List.range n) < n := fun hlt =>
          hspec.1 (List.mem_range.mpr hlt)
        have h2 : ¬ n < getNewClientId (List.range n) := fun hlt => by
          have := hspec.2 n hlt
          exact absurd (List.mem_range.mp this) (lt_irrefl n)
        omega
      rw [hid, List.range_succ]

/-- Witness for `getNewClientId_smallest_unused`: with numbers 0, 1 and 3
in use the allocator returns 2, and three registrations yield exactly
the numbers 0, 1, 2. -/
theorem getNewClientId_smallest_unused_witness :
    getNewClientId [0, 1, 3] ∉ ([0, 1, 3] : List Nat) ∧
    registerN 3 = List.range 3 :=
  ⟨(getNewClientId_smallest_unused [0, 1, 3] 3 0).1,
   (getNewClientId_smallest_unused [0, 1, 3] 3 0).2.2.1⟩

/-! ## Handshake: `TerrariaProtocol.handleConnectionRequest`
(src/net/protocols.py lines 346-362) -/

def PROTOCOL_VERSION : String := "Terraria173"

/-- Messages the connection-request handler can write to the transport.
The disconnect text comes from `Strings.UnsupportedClientVersion`
(the `resources.strings` module is not among the sources), kept abstract
as a constructor tag. -/
inductive HandshakeOut : Type where
  | disconnectUnsupportedVersion
  | passwordRequest
  | requestPlayerData (clientNumber : Nat)
  deriving DecidableEq, Repr

/-- Result of `handleConnectionRequest`: the messages written to the
transport in order, the session's `isAuthed` flag afterwards, and whether
`_disconnect` closed the transport. -/
structure HandshakeResult : Type where
  sent : List HandshakeOut
  isAuthed : Bool
  closed : Bool
  deriving DecidableEq, Repr

/-- Embedding of `TerrariaProtocol.handleConnectionRequest`: a version
mismatch (including the `None` sentinel) goes through
`_disconnect(Strings.UnsupportedClientVersion)`, which sends a disconnect
message and loses the connection; otherwise a configured non-empty
`serverPassword` elicits a `PasswordRequestMessage`, and an empty one a
`RequestPlayerDataMessage` carrying the session's client number together
with `isAuthed = True`. -/
def handleConnectionRequest (clientVersion : Option String) (serverPassword : String)
    (clientNumber : Nat) (isAuthed : Bool) : HandshakeResult :=
  if clientVersion ≠ some PROTOCOL_VERSION then
    { sent := [HandshakeOut.disconnectUnsupportedVersion]
      isAuthed := isAuthed
      closed := true }
  else if serverPassword ≠ "" then
    { sent := [HandshakeOut.passwordRequest]
      isAuthed := isAuthed
      closed := false }
  else
    { sent := [HandshakeOut.requestPlayerData clientNumber]
      isAuthed := true
      closed := false }

/-- C4: a connection request carrying exactly the protocol version, with
no server password configured, authenticates the session and sends
exactly one request-player-data message carrying the session's client
number; with a non-empty password configured it sends a password request
and leaves the session unauthenticated. -/
theorem handleConnectionRequest_versionMatch (clientNumber : Nat) :
    handleConnectionRequest (some PROTOCOL_VERSION) "" clientNumber false =
      { sent := [HandshakeOut.requestPlayerData clientNumber]
        isAuthed := true
        closed := false } ∧
    ∀ pw : String, pw ≠ "" →
      handleConnectionRequest (some PROTOCOL_VERSION) pw clientNumber false =
        { sent := [HandshakeOut.passwordRequest]
          isAuthed := false
          closed := false } := by
  constructor
  · simp [handleConnectionRequest]
  · intro pw hpw
    simp [handleConnectionRequest, hpw]

/-- Witness for `handleConnectionRequest_versionMatch` at client number 7
and the password "hunter2". -/
theorem handleConnectionRequest_versionMatch_witness :
    handleConnectionRequest (some PROTOCOL_VERSION) "hunter2" 7 false =
      { sent := [HandshakeOut.passwordRequest]
        isAuthed := false
        closed := false } :=
  (handleConnectionRequest_versionMatch 7).2 "hunter2" (by decide)

/-! ## Tile block requests: `TerrariaProtocol.gotTileBlockRequest`
(src/net/protocols.py lines 398-417) -/

/-- The `flag3` validity computation of `gotTileBlockRequest`: initially
true, cleared when a coordinate is -1 or within 10 tiles of a world
edge. -/
def tileRequestValid (width height x y : Int) : Bool :=
  if x = -1 ∨ y = -1 then false
  else if x < 10 ∨ x > width - 10 then false
  else if y < 10 ∨ y > height - 10 then false
  else true

/-- The `someNumber` sent in the `TileLoadingMessage`: 1350, doubled when
the request was valid. -/
def tileLoadingNumber (width height x y : Int) : Int :=
  if tileRequestValid width height x y then 1350 * 2 else 1350

/-- C5: in a 200 by 200 world the request (5, 5) is invalid and gets the
loading hint 1350, the request (100, 100) is valid and gets 2700, and a
request with x = -1 or y = -1 is invalid in every world. -/
theorem gotTileBlockRequest_examples :
    tileRequestValid 200 200 5 5 = false ∧
    tileLoadingNumber 200 200 5 5 = 1350 ∧
    tileRequestValid 200 200 100 100 = true ∧
    tileLoadingNumber 200 200 100 100 = 2700 ∧
    (∀ W H y : Int, tileRequestValid W H (-1) y = false) ∧
    (∀ W H x : Int, tileRequestValid W H x (-1) = false) := by
  refine ⟨by decide, by decide, by decide, by decide, ?_, ?_⟩
  · intro W H y
    simp [tileRequestValid]
  · intro W H x
    simp [tileRequestValid]

/-- C9: the rejection margin is exclusive at exactly 10 tiles: a request
is valid precisely when `10 ≤ x ≤ width - 10` and
`10 ≤ y ≤ height - 10` (the -1 checks are subsumed, since -1 < 10), and
the loading hint is 2700 for valid requests and 1350 otherwise. -/
theorem tileRequestValid_margin (width height x y : Int) :
    (tileRequestValid width height x y = true ↔
      10 ≤ x ∧ x ≤ width - 10 ∧ 10 ≤ y ∧ y ≤ height - 10) ∧
    tileLoadingNumber width height x y =
      (if tileRequestValid width height x y then 2700 else 1350) := by
  constructor
  · rw [tileRequestValid]
    split_ifs with h1 h2 h3
    · simp only [Bool.false_eq_true, false_iff]
      omega
    · simp only [Bool.false_eq_true, false_iff]
      omega
    · simp only [Bool.false_eq_true, false_iff]
      omega
    · simp only [true_iff]
      omega
  · rw [tileLoadingNumber]
    split <;> norm_num

/-! ## Connection request parsing: `parseConnectionRequest`
(src/net/parsers.py lines 11-22) -/

/-- Modelled from the spec: `Message.byteFormat` and
`Message.byteFormatLen` come from the `messages` module, which is not
among the sources; the spec fixes the connection-request payload as a
little-endian `u16 declaredLength` followed by the version bytes, so the
length field is 2 bytes. -/
def byteFormatLen : Nat := 2

/-- Value of `struct.unpack` with a `u16` format on a byte string:
`struct.error` (modelled `none`) unless the string is exactly 2 bytes. -/
def unpackExactU16 : List Nat → Option Nat
  | [b0, b1] => some (b0 + 256 * b1)
  | _ => none

/-- CPython 2 semantics of `is not` between two freshly computed
non-negative ints, as in `len(rawMessage) is not message_length`: ints
from -5 to 256 are cached singletons, so two equal non-negative values
are the same object exactly when the value is at most 256. -/
def intIsNot (a b : Nat) : Bool :=
  if a = b ∧ a ≤ 256 then false else true

/-- Embedding of `parseConnectionRequest`: `none` models an uncaught
`struct.error`; `some none` the sentinel message with
`clientVersion = None`; `some (some v)` a message whose `clientVersion`
is the byte string `v`. -/
def parseConnectionRequest (rawMessage : List Nat) : Option (Option (List Nat)) :=
  match unpackExactU16 (rawMessage.take byteFormatLen) with
  | none => none
  | some message_length =>
    if intIsNot (rawMessage.drop byteFormatLen).length message_length then
      some none
    else
      some (some (rawMessage.drop byteFormatLen))

set_option maxRecDepth 2000 in
/-- C6: the claim fails on the code in two ways, both shown here.  A
payload shorter than the 2-byte length field makes `struct.unpack` raise
(the empty payload returns the `none` that models the exception), and a
payload whose remaining length equals the declared length does not yield
the version when that length exceeds 256, because `is not` compares
object identity and CPython 2 only caches ints up to 256: declared
length 257 with exactly 257 version bytes yields the no-version
sentinel.  A matching length of at most 256 does yield the version
bytes. -/
theorem parseConnectionRequest_raises_and_mislabels :
    parseConnectionRequest [] = none ∧
    ((1 :: 1 :: List.replicate 257 65).drop byteFormatLen).length = 257 ∧
    unpackExactU16 ((1 :: 1 :: List.replicate 257 65).take byteFormatLen) = some 257 ∧
    parseConnectionRequest (1 :: 1 :: List.replicate 257 65) = some none ∧
    parseConnectionRequest [3, 0, 65, 66, 67] = some (some [65, 66, 67]) := by
  refine ⟨rfl, by decide, by decide, by decide, by decide⟩

end TPS
